import Mathlib

set_option linter.unusedVariables false
set_option linter.unnecessarySeqFocus false

/-!
Shallow embedding of `sonix_burn.exe.c` / `sonix_burn.exe.h`: a host-side
driver that reads the SPI flash of a Sonix UVC camera through Extension-Unit
(XU) control transfers.  Machine integers are modelled as `Nat` with explicit
reductions (`% 2^32` for `unsigned int`, `% 2^16` for `unsigned short`,
`% 2^8` for `unsigned char`) exactly where the C performs a conversion.
External effects (libusb calls, malloc, fopen, fwrite) are modelled by
oracles supplying their results, and each function additionally returns the
trace of calls it issued.
-/

/-- XU control selector for staging an SPI read window (header constant). -/
def XU_CMD_SPI_READ_SET : Nat := 0x23

/-- XU control selector for fetching a staged SPI read window (header constant). -/
def XU_CMD_SPI_READ_GET : Nat := 0x24

/-- XU control selector for staging an SPI write window (header constant). -/
def XU_CMD_SPI_WRITE_SET : Nat := 0x25

/-- XU control selector for pushing SPI write data (header constant). -/
def XU_CMD_SPI_WRITE_DATA : Nat := 0x26

/-- One USB control transfer as handed to `libusb_control_transfer`:
the setup-packet fields, the direction, the data (payload bytes for a
host-to-device SET, empty for a device-to-host GET), the requested
length and the timeout. -/
structure CtrlXfer where
  bmRequestType : Nat
  bRequest : Nat
  wValue : Nat
  wIndex : Nat
  hostToDevice : Bool
  data : List Nat
  wLength : Nat
  timeout : Nat
deriving DecidableEq, Repr

/-- Model of `snx_xu_set`: the control transfer it issues.
`wValue = cs << 8` and `wIndex = (xu_id << 8) | vc_if`, both stored in
C `unsigned short` variables, hence the `% 65536`. -/
def snx_xu_set (vc_if xu_id cs : Nat) (payload : List Nat) (len : Nat) : CtrlXfer :=
  { bmRequestType := 0x21, bRequest := 0x01,
    wValue := (cs <<< 8) % 65536,
    wIndex := ((xu_id <<< 8) ||| vc_if) % 65536,
    hostToDevice := true, data := payload, wLength := len, timeout := 3000 }

/-- Model of `snx_xu_get`: the control transfer it issues. -/
def snx_xu_get (vc_if xu_id cs : Nat) (len : Nat) : CtrlXfer :=
  { bmRequestType := 0xA1, bRequest := 0x81,
    wValue := (cs <<< 8) % 65536,
    wIndex := ((xu_id <<< 8) ||| vc_if) % 65536,
    hostToDevice := false, data := [], wLength := len, timeout := 3000 }

/-- The 5-byte SET payload built inside the loop of `snx_sf_read`:
3 bytes of big-endian address, 2 bytes of big-endian chunk length
(`(x >> k) & 0xFF` is `(x >>> k) % 256`). -/
def readSetPayload (addr chunk : Nat) : List Nat :=
  [(addr >>> 16) % 256, (addr >>> 8) % 256, addr % 256,
   (chunk >>> 8) % 256, chunk % 256]

/-- The chunk size chosen by `snx_sf_read` for a given remaining length:
`remaining > 1023 ? 1023 : remaining`. -/
def chunkSize (remaining : Nat) : Nat :=
  if remaining > 1023 then 1023 else remaining

/-- The size of the `i`-th chunk of a read of `length` bytes. -/
def chunkAt (length i : Nat) : Nat :=
  chunkSize (length - 1023 * i)

/-- The number of chunks of a read of `length` bytes: `ceil(length / 1023)`. -/
def numChunks (length : Nat) : Nat :=
  (length + 1022) / 1023

/-- The sequence of `(address, chunk)` windows the loop of `snx_sf_read`
walks through, extracted from the source loop.  The address counter is a
C `unsigned int`, so it advances modulo `2^32`.  `fuel` is an upper bound
on the remaining length, making the recursion structural; it is
instantiated with the remaining length itself. -/
def chunkPlanGo : Nat → Nat → Nat → List (Nat × Nat)
  | 0, _, _ => []
  | fuel + 1, addr, remaining =>
    if remaining = 0 then []
    else
      (addr, chunkSize remaining) ::
        chunkPlanGo fuel ((addr + chunkSize remaining) % 4294967296)
          (remaining - chunkSize remaining)

/-- The chunk plan of `snx_sf_read addr length`. -/
def chunkPlan (addr length : Nat) : List (Nat × Nat) :=
  chunkPlanGo length addr length

/-- Model of `struct snx_device`: context and handle pointers (`none` is
`NULL`), the Video-Control interface number and the Extension-Unit id. -/
structure snx_device where
  ctx : Option Nat
  handle : Option Nat
  vc_interface : Nat
  xu_id : Nat
deriving DecidableEq, Repr

/-- The SET transfer issued for the window `(addr, chunk)`:
`snx_xu_set(dev->handle, dev->vc_interface, dev->xu_id,
XU_CMD_SPI_READ_SET, payload, sizeof(payload))` with `sizeof(payload) = 5`. -/
def setXfer (dev : snx_device) (addr chunk : Nat) : CtrlXfer :=
  snx_xu_set dev.vc_interface dev.xu_id XU_CMD_SPI_READ_SET
    (readSetPayload addr chunk) 5

/-- The GET transfer issued for a window of size `chunk`:
`snx_xu_get(dev->handle, dev->vc_interface, dev->xu_id,
XU_CMD_SPI_READ_GET, p, chunk)`. -/
def getXfer (dev : snx_device) (chunk : Nat) : CtrlXfer :=
  snx_xu_get dev.vc_interface dev.xu_id XU_CMD_SPI_READ_GET chunk

/-- The Set/Get transfer pairs corresponding to a chunk plan. -/
def planPairs (dev : snx_device) : List (Nat × Nat) → List CtrlXfer
  | [] => []
  | w :: ws => setXfer dev w.1 w.2 :: getXfer dev w.2 :: planPairs dev ws

/-- The buffer writes (offset into `out`, byte count) of a fully
successful chunk plan starting at output offset `off`. -/
def planWrites (off : Nat) : List (Nat × Nat) → List (Nat × Nat)
  | [] => []
  | w :: ws => (off, w.2) :: planWrites (off + w.2) ws

/-- The loop of `snx_sf_read`.  `env n` is the return value of the `n`-th
`libusb_control_transfer` issued from the current iteration on (the Set of
the current chunk consumes `env 0`, its Get `env 1`, and the recursive
call sees the oracle shifted by two).  Returns the C return value, the
transfers issued, and the buffer writes `(offset, bytes received)` of the
Gets that were issued (`libusb` reports `r` bytes received on `r ≥ 0`).
`fuel` bounds the remaining length to make the recursion structural. -/
def snx_sf_read_go (dev : snx_device) :
    Nat → (Nat → Int) → Nat → Nat → Nat → Int × List CtrlXfer × List (Nat × Nat)
  | 0, _, _, _, _ => (0, [], [])
  | fuel + 1, env, addr, remaining, off =>
    if remaining = 0 then (0, [], [])
    else
      let chunk := chunkSize remaining
      let sx := setXfer dev addr chunk
      let r1 := env 0
      if r1 < 0 then (r1, [sx], [])
      else
        let gx := getXfer dev chunk
        let r2 := env 1
        if r2 < 0 ∨ r2 ≠ (chunk : Int) then
          ((if r2 < 0 then r2 else -1), [sx, gx], [(off, r2.toNat)])
        else
          let rest := snx_sf_read_go dev fuel (fun n => env (n + 2))
            ((addr + chunk) % 4294967296) (remaining - chunk) (off + chunk)
          (rest.1, sx :: gx :: rest.2.1, (off, r2.toNat) :: rest.2.2)

/-- Model of `snx_sf_read(dev, addr, length, out)`.  `addr` and `length`
are C `unsigned int` arguments (so callers pass values below `2^32`; the
running address counter wraps modulo `2^32` inside the loop exactly as the
C does); the output pointer `p = out` is modelled as the running offset
starting at 0. -/
def snx_sf_read (dev : snx_device) (env : Nat → Int) (addr length : Nat) :
    Int × List CtrlXfer × List (Nat × Nat) :=
  snx_sf_read_go dev length env addr length 0

/-- Calls into the USB library made by the session lifecycle functions. -/
inductive UsbEv where
  | init
  | openDev
  | claim (intf : Nat) (ok : Bool)
  | release (intf : Nat)
  | closeDev
  | exitCtx
deriving DecidableEq, Repr

/-- Oracle for `snx_open`: whether `libusb_init` succeeds (and the context
pointer value it then stores), the handle returned by
`libusb_open_device_with_vid_pid` (`none` is `NULL`), and whether the
`libusb_claim_interface` call succeeds (its result is ignored by the code). -/
structure OpenWorld where
  init_ok : Bool
  ctxVal : Nat
  device : Option Nat
  claim_ok : Bool

/-- Model of `snx_open`.  The struct is zeroed (`memset`) first; on
`libusb_init` failure nothing was stored; when the device is not found the
code calls `libusb_exit(dev->ctx)` but never clears the `ctx` field, so the
returned struct keeps the stale pointer; on success the interface claim is
attempted and its result discarded. -/
def snx_open (w : OpenWorld) (vid pid : Nat) (vc_if xu_id : Nat) :
    Int × snx_device × List UsbEv :=
  if ¬ w.init_ok then (-1, ⟨none, none, 0, 0⟩, [.init])
  else
    match w.device with
    | none => (-1, ⟨some w.ctxVal, none, 0, 0⟩, [.init, .openDev, .exitCtx])
    | some h =>
      (0, ⟨some w.ctxVal, some h, vc_if, xu_id⟩,
        [.init, .openDev, .claim vc_if w.claim_ok])

/-- Model of `snx_close`: release and close only when the handle is
non-null, tear down the context only when it is non-null, then `memset`
the struct to all-zero. -/
def snx_close (d : snx_device) : snx_device × List UsbEv :=
  (⟨none, none, 0, 0⟩,
    (match d.handle with
     | some _ => [UsbEv.release d.vc_interface, UsbEv.closeDev]
     | none => []) ++
    (match d.ctx with
     | some _ => [UsbEv.exitCtx]
     | none => []))

/-- A session with all handle fields null, as the spec's fully-closed state. -/
def sessionClosed (d : snx_device) : Prop :=
  d.ctx = none ∧ d.handle = none ∧ d.vc_interface = 0 ∧ d.xu_id = 0

instance (d : snx_device) : Decidable (sessionClosed d) := by
  unfold sessionClosed
  infer_instance

/-- Oracle for `snx_dump_firmware`: whether `malloc` succeeds, the control
transfer results driving the inner `snx_sf_read`, whether `fopen` succeeds,
and how many bytes `fwrite` actually writes (at most the requested count). -/
structure DumpWorld where
  malloc_ok : Bool
  env : Nat → Int
  fopen_ok : Bool
  fwrite_ret : Nat

/-- State of the destination file after a dump:
never opened, or created with the given number of bytes and closed. -/
inductive DumpFile where
  | untouched
  | written (bytes : Nat)
deriving DecidableEq, Repr

/-- Model of `snx_dump_firmware(dev, addr, length, path)`.  Returns the C
return value, the destination-file outcome, and the control transfers the
inner read issued.  The code never checks `fwrite`'s return value, so the
file ends up with `min fwrite_ret length` bytes and is closed regardless. -/
def snx_dump_firmware (w : DumpWorld) (dev : snx_device)
    (addr length : Nat) (path : String) : Int × DumpFile × List CtrlXfer :=
  if ¬ w.malloc_ok then (-1, .untouched, [])
  else
    let rd := snx_sf_read dev w.env addr length
    if rd.1 = 0 then
      if w.fopen_ok then (0, .written (min w.fwrite_ret length), rd.2.1)
      else (-1, .untouched, rd.2.1)
    else (rd.1, .untouched, rd.2.1)

/-- Oracle for `main`: the open-phase oracle, the dump-phase oracle and the
transfer results for the `read` command. -/
structure MainWorld where
  openW : OpenWorld
  dumpW : DumpWorld
  readEnv : Nat → Int

/-- Model of the C `main(argc, argv)` (renamed, since Lean reserves the
name `main` for an executable entry point): `argv` is the full argument
vector (program name included), so `argc = argv.length`.  Returns the exit
status, the printed messages in order, the USB lifecycle calls and the
control transfers issued.  Stdout/stderr are not distinguished. -/
def c_main (w : MainWorld) (argv : List String) :
    Nat × List String × List UsbEv × List CtrlXfer :=
  if argv.length ≠ 2 then
    (1, ["Usage: " ++ argv.headD "" ++ " dump|read"], [], [])
  else
    let o := snx_open w.openW 0x0C45 0x6366 0 3
    if o.1 ≠ 0 then (1, ["Device open failed"], o.2.2, [])
    else
      let dev := o.2.1
      let c := snx_close dev
      if argv.getD 1 "" = "dump" then
        let d := snx_dump_firmware w.dumpW dev 0 0x20000 "firmware_dump.bin"
        (0,
          [if d.1 = 0 then "Firmware dumped to firmware_dump.bin"
           else "Dump failed"],
          o.2.2 ++ c.2, d.2.2)
      else if argv.getD 1 "" = "read" then
        let r := snx_sf_read dev w.readEnv 0 256
        (0,
          [if r.1 = 0 then "Read 256 bytes OK" else "Read failed"],
          o.2.2 ++ c.2, r.2.1)
      else
        (0, ["Unknown command"], o.2.2 ++ c.2, [])

/-- The success condition on a transfer-result oracle for a read of
`length` bytes: every Set succeeds and every Get returns exactly its
chunk's size, for all `numChunks length` chunks. -/
def okEnv (env : Nat → Int) (length j : Nat) : Prop :=
  ∀ i, i < j → 0 ≤ env (2 * i) ∧ env (2 * i + 1) = (chunkAt length i : Int)

instance (env : Nat → Int) (length j : Nat) : Decidable (okEnv env length j) := by
  unfold okEnv
  infer_instance

/-! ### Facts about the chunk plan -/

theorem chunkSize_pos {n : Nat} (h : 0 < n) : 0 < chunkSize n := by
  unfold chunkSize
  split <;> omega

theorem chunkSize_le_1023 (n : Nat) : chunkSize n ≤ 1023 := by
  unfold chunkSize
  split <;> omega

theorem chunkSize_le (n : Nat) : chunkSize n ≤ n := by
  unfold chunkSize
  split <;> omega

theorem chunkPlanGo_nil (fuel addr : Nat) : chunkPlanGo fuel addr 0 = [] := by
  cases fuel <;> simp [chunkPlanGo]

theorem chunkPlanGo_cons (fuel addr rem : Nat) (h : rem ≠ 0) :
    chunkPlanGo (fuel + 1) addr rem =
      (addr, chunkSize rem) ::
        chunkPlanGo fuel ((addr + chunkSize rem) % 4294967296) (rem - chunkSize rem) := by
  simp [chunkPlanGo, h]

theorem chunkPlanGo_length (fuel : Nat) :
    ∀ addr rem, rem ≤ fuel → (chunkPlanGo fuel addr rem).length = numChunks rem := by
  induction fuel with
  | zero =>
    intro addr rem h
    have : rem = 0 := by omega
    subst this
    simp [chunkPlanGo, numChunks]
  | succ fuel ih =>
    intro addr rem h
    by_cases hr : rem = 0
    · subst hr
      simp [chunkPlanGo, numChunks]
    · rw [chunkPlanGo_cons fuel addr rem hr]
      have hpos : 0 < chunkSize rem := chunkSize_pos (by omega)
      have hle : chunkSize rem ≤ rem := chunkSize_le rem
      rw [List.length_cons, ih _ _ (by omega)]
      unfold numChunks chunkSize
      split <;> omega

theorem chunkPlanGo_sum (fuel : Nat) :
    ∀ addr rem, rem ≤ fuel →
      ((chunkPlanGo fuel addr rem).map Prod.snd).sum = rem := by
  induction fuel with
  | zero =>
    intro addr rem h
    have : rem = 0 := by omega
    subst this
    simp [chunkPlanGo]
  | succ fuel ih =>
    intro addr rem h
    by_cases hr : rem = 0
    · subst hr
      simp [chunkPlanGo]
    · rw [chunkPlanGo_cons fuel addr rem hr]
      have hpos : 0 < chunkSize rem := chunkSize_pos (by omega)
      have hle : chunkSize rem ≤ rem := chunkSize_le rem
      simp only [List.map_cons, List.sum_cons]
      rw [ih _ _ (by omega)]
      omega

theorem chunkPlanGo_mem_bounds (fuel : Nat) :
    ∀ addr rem, rem ≤ fuel →
      ∀ w ∈ chunkPlanGo fuel addr rem, 0 < w.2 ∧ w.2 ≤ 1023 := by
  induction fuel with
  | zero =>
    intro addr rem h
    have : rem = 0 := by omega
    subst this
    simp [chunkPlanGo]
  | succ fuel ih =>
    intro addr rem h w hw
    by_cases hr : rem = 0
    · subst hr
      simp [chunkPlanGo] at hw
    · rw [chunkPlanGo_cons fuel addr rem hr] at hw
      have hpos : 0 < chunkSize rem := chunkSize_pos (by omega)
      have hle : chunkSize rem ≤ rem := chunkSize_le rem
      rcases List.mem_cons.mp hw with h1 | h2
      · subst h1
        exact ⟨hpos, chunkSize_le_1023 rem⟩
      · exact ih _ _ (by omega) w h2

theorem chunkPlanGo_head (fuel addr rem : Nat) (h : rem ≤ fuel) (hr : rem ≠ 0) :
    (chunkPlanGo fuel addr rem).head? = some (addr, chunkSize rem) := by
  cases fuel with
  | zero => omega
  | succ fuel => rw [chunkPlanGo_cons fuel addr rem hr]; rfl

theorem chunkPlanGo_mem_range (fuel : Nat) :
    ∀ addr rem, rem ≤ fuel → addr + rem ≤ 4294967296 →
      ∀ w ∈ chunkPlanGo fuel addr rem, addr ≤ w.1 ∧ w.1 + w.2 ≤ addr + rem := by
  induction fuel with
  | zero =>
    intro addr rem h _
    have : rem = 0 := by omega
    subst this
    simp [chunkPlanGo]
  | succ fuel ih =>
    intro addr rem h hnw w hw
    by_cases hr : rem = 0
    · subst hr
      simp [chunkPlanGo] at hw
    · rw [chunkPlanGo_cons fuel addr rem hr] at hw
      have hpos : 0 < chunkSize rem := chunkSize_pos (by omega)
      have hle : chunkSize rem ≤ rem := chunkSize_le rem
      rcases List.mem_cons.mp hw with h1 | h2
      · subst h1
        constructor <;> simp <;> omega
      · by_cases hfull : chunkSize rem = rem
        · rw [hfull] at h2
          simp [chunkPlanGo_nil] at h2
        · have hmod : (addr + chunkSize rem) % 4294967296 = addr + chunkSize rem :=
            Nat.mod_eq_of_lt (by omega)
          rw [hmod] at h2
          have := ih (addr + chunkSize rem) (rem - chunkSize rem) (by omega) (by omega) w h2
          omega

theorem chunkPlanGo_chain (fuel : Nat) :
    ∀ addr rem, rem ≤ fuel → addr + rem ≤ 4294967296 →
      List.Chain' (fun w1 w2 : Nat × Nat => w2.1 = w1.1 + w1.2)
        (chunkPlanGo fuel addr rem) := by
  induction fuel with
  | zero =>
    intro addr rem h _
    have : rem = 0 := by omega
    subst this
    simp [chunkPlanGo]
  | succ fuel ih =>
    intro addr rem h hnw
    by_cases hr : rem = 0
    · subst hr
      simp [chunkPlanGo]
    · rw [chunkPlanGo_cons fuel addr rem hr]
      have hpos : 0 < chunkSize rem := chunkSize_pos (by omega)
      have hle : chunkSize rem ≤ rem := chunkSize_le rem
      by_cases hfull : chunkSize rem = rem
      · rw [hfull, Nat.sub_self, chunkPlanGo_nil]
        simp
      · have hmod : (addr + chunkSize rem) % 4294967296 = addr + chunkSize rem :=
          Nat.mod_eq_of_lt (by omega)
        rw [List.chain'_cons']
        refine ⟨?_, ?_⟩
        · intro y hy
          rw [hmod, chunkPlanGo_head fuel _ _ (by omega) (by omega)] at hy
          simp at hy
          subst hy
          simp
        · rw [hmod]
          exact ih _ _ (by omega) (by omega)

theorem chunkPlanGo_pairwise (fuel : Nat) :
    ∀ addr rem, rem ≤ fuel → addr + rem ≤ 4294967296 →
      List.Pairwise (fun w1 w2 : Nat × Nat => w1.1 + w1.2 ≤ w2.1)
        (chunkPlanGo fuel addr rem) := by
  induction fuel with
  | zero =>
    intro addr rem h _
    have : rem = 0 := by omega
    subst this
    simp [chunkPlanGo]
  | succ fuel ih =>
    intro addr rem h hnw
    by_cases hr : rem = 0
    · subst hr
      simp [chunkPlanGo]
    · rw [chunkPlanGo_cons fuel addr rem hr]
      have hpos : 0 < chunkSize rem := chunkSize_pos (by omega)
      have hle : chunkSize rem ≤ rem := chunkSize_le rem
      by_cases hfull : chunkSize rem = rem
      · rw [hfull, Nat.sub_self, chunkPlanGo_nil]
        simp
      · have hmod : (addr + chunkSize rem) % 4294967296 = addr + chunkSize rem :=
          Nat.mod_eq_of_lt (by omega)
        rw [hmod, List.pairwise_cons]
        refine ⟨?_, ih _ _ (by omega) (by omega)⟩
        intro w hw
        have := chunkPlanGo_mem_range fuel (addr + chunkSize rem)
          (rem - chunkSize rem) (by omega) (by omega) w hw
        simp
        omega

/-! ### Facts about the read loop -/

theorem snx_sf_read_go_zero (dev : snx_device) (fuel : Nat) (env : Nat → Int)
    (addr off : Nat) :
    snx_sf_read_go dev fuel env addr 0 off = (0, [], []) := by
  cases fuel <;> simp [snx_sf_read_go]

theorem snx_sf_read_go_set_fail (dev : snx_device) (fuel : Nat) (env : Nat → Int)
    (addr rem off : Nat) (hr : rem ≠ 0) (h1 : env 0 < 0) :
    snx_sf_read_go dev (fuel + 1) env addr rem off =
      (env 0, [setXfer dev addr (chunkSize rem)], []) := by
  simp [snx_sf_read_go, hr, h1]

theorem snx_sf_read_go_get_fail (dev : snx_device) (fuel : Nat) (env : Nat → Int)
    (addr rem off : Nat) (hr : rem ≠ 0) (h1 : 0 ≤ env 0)
    (h2 : env 1 < 0 ∨ env 1 ≠ (chunkSize rem : Int)) :
    snx_sf_read_go dev (fuel + 1) env addr rem off =
      ((if env 1 < 0 then env 1 else -1),
       [setXfer dev addr (chunkSize rem), getXfer dev (chunkSize rem)],
       [(off, (env 1).toNat)]) := by
  have h1' : ¬ env 0 < 0 := by omega
  simp only [snx_sf_read_go]
  rw [if_neg hr, if_neg h1', if_pos h2]

theorem snx_sf_read_go_step (dev : snx_device) (fuel : Nat) (env : Nat → Int)
    (addr rem off : Nat) (hr : rem ≠ 0) (h1 : 0 ≤ env 0)
    (h2 : env 1 = (chunkSize rem : Int)) :
    snx_sf_read_go dev (fuel + 1) env addr rem off =
      ((snx_sf_read_go dev fuel (fun n => env (n + 2))
          ((addr + chunkSize rem) % 4294967296) (rem - chunkSize rem)
          (off + chunkSize rem)).1,
       setXfer dev addr (chunkSize rem) :: getXfer dev (chunkSize rem) ::
         (snx_sf_read_go dev fuel (fun n => env (n + 2))
            ((addr + chunkSize rem) % 4294967296) (rem - chunkSize rem)
            (off + chunkSize rem)).2.1,
       (off, chunkSize rem) ::
         (snx_sf_read_go dev fuel (fun n => env (n + 2))
            ((addr + chunkSize rem) % 4294967296) (rem - chunkSize rem)
            (off + chunkSize rem)).2.2) := by
  have h1' : ¬ env 0 < 0 := by omega
  have h2' : ¬ (env 1 < 0 ∨ env 1 ≠ (chunkSize rem : Int)) := by
    push_neg
    constructor
    · omega
    · exact h2
  simp only [snx_sf_read_go]
  rw [if_neg hr, if_neg h1', if_neg h2']
  have : (env 1).toNat = chunkSize rem := by
    rw [h2]
    exact Int.toNat_natCast _
  rw [this]

theorem numChunks_pos {rem : Nat} (h : rem ≠ 0) : 0 < numChunks rem := by
  unfold numChunks
  omega

theorem numChunks_one {rem : Nat} (h1 : rem ≠ 0) (h2 : rem ≤ 1023) :
    numChunks rem = 1 := by
  unfold numChunks
  omega

theorem numChunks_succ {rem : Nat} (h : rem > 1023) :
    numChunks rem = numChunks (rem - 1023) + 1 := by
  unfold numChunks
  omega

theorem chunkAt_zero (rem : Nat) : chunkAt rem 0 = chunkSize rem := by
  simp [chunkAt]

theorem chunkAt_succ {rem : Nat} (h : rem > 1023) (i : Nat) :
    chunkAt rem (i + 1) = chunkAt (rem - 1023) i := by
  unfold chunkAt
  have : rem - 1023 * (i + 1) = rem - 1023 - 1023 * i := by omega
  rw [this]

theorem chunkSize_of_gt {rem : Nat} (h : rem > 1023) : chunkSize rem = 1023 := by
  simp [chunkSize, h]

theorem okEnv_shift {env : Nat → Int} {rem j : Nat} (hrem : rem > 1023)
    (h : okEnv env rem (j + 1)) :
    okEnv (fun n => env (n + 2)) (rem - 1023) j := by
  intro i hi
  have := h (i + 1) (by omega)
  rw [chunkAt_succ hrem] at this
  constructor
  · have e : 2 * i + (2 : Nat) = 2 * (i + 1) := by ring
    simpa [e] using this.1
  · have e : 2 * i + 1 + (2 : Nat) = 2 * (i + 1) + 1 := by ring
    simpa [e] using this.2

theorem okEnv_shift_all {env : Nat → Int} {rem : Nat}
    (h : okEnv env rem (numChunks rem)) (hr : rem ≠ 0) :
    okEnv (fun n => env (n + 2)) (rem - chunkSize rem)
      (numChunks (rem - chunkSize rem)) := by
  by_cases hgt : rem > 1023
  · rw [chunkSize_of_gt hgt]
    have hn := numChunks_succ hgt
    exact okEnv_shift hgt (by rw [← hn] at *; exact fun i hi => h i hi)
  · have : chunkSize rem = rem := by simp [chunkSize]; omega
    rw [this, Nat.sub_self]
    intro i hi
    simp [numChunks] at hi

theorem snx_sf_read_go_ok (fuel : Nat) :
    ∀ (dev : snx_device) (env : Nat → Int) addr rem off, rem ≤ fuel →
      okEnv env rem (numChunks rem) →
      snx_sf_read_go dev fuel env addr rem off =
        (0, planPairs dev (chunkPlanGo fuel addr rem),
         planWrites off (chunkPlanGo fuel addr rem)) := by
  induction fuel with
  | zero =>
    intro dev env addr rem off h _
    have : rem = 0 := by omega
    subst this
    simp [snx_sf_read_go, chunkPlanGo, planPairs, planWrites]
  | succ fuel ih =>
    intro dev env addr rem off h henv
    by_cases hr : rem = 0
    · subst hr
      simp [snx_sf_read_go_zero, chunkPlanGo, planPairs, planWrites]
    · have h0 := henv 0 (numChunks_pos hr)
      rw [chunkAt_zero] at h0
      rw [snx_sf_read_go_step dev fuel env addr rem off hr h0.1 h0.2]
      have hle : chunkSize rem ≤ rem := chunkSize_le rem
      have hpos : 0 < chunkSize rem := chunkSize_pos (by omega)
      rw [ih dev _ _ _ _ (by omega) (okEnv_shift_all henv hr)]
      rw [chunkPlanGo_cons fuel addr rem hr]
      simp [planPairs, planWrites]

theorem snx_sf_read_go_eq_zero (fuel : Nat) :
    ∀ (dev : snx_device) (env : Nat → Int) addr rem off, rem ≤ fuel →
      (snx_sf_read_go dev fuel env addr rem off).1 = 0 →
      okEnv env rem (numChunks rem) := by
  induction fuel with
  | zero =>
    intro dev env addr rem off h _
    have : rem = 0 := by omega
    subst this
    intro i hi
    simp [numChunks] at hi
  | succ fuel ih =>
    intro dev env addr rem off h hres
    by_cases hr : rem = 0
    · subst hr
      intro i hi
      simp [numChunks] at hi
    · by_cases h1 : env 0 < 0
      · rw [snx_sf_read_go_set_fail dev fuel env addr rem off hr h1] at hres
        simp at hres
        omega
      · push_neg at h1
        by_cases h2 : env 1 < 0 ∨ env 1 ≠ (chunkSize rem : Int)
        · rw [snx_sf_read_go_get_fail dev fuel env addr rem off hr h1 h2] at hres
          simp at hres
          split at hres <;> omega
        · push_neg at h2
          rw [snx_sf_read_go_step dev fuel env addr rem off hr h1 h2.2] at hres
          simp at hres
          have hle : chunkSize rem ≤ rem := chunkSize_le rem
          have hpos : 0 < chunkSize rem := chunkSize_pos (by omega)
          have hsub := ih dev _ _ _ _ (by omega : rem - chunkSize rem ≤ fuel) hres
          intro i hi
          cases i with
          | zero =>
            rw [chunkAt_zero]
            exact ⟨h1, h2.2⟩
          | succ i =>
            by_cases hgt : rem > 1023
            · rw [chunkSize_of_gt hgt] at hsub
              have hbound : i < numChunks (rem - 1023) := by
                have := numChunks_succ hgt
                omega
              have := hsub i hbound
              rw [← chunkAt_succ hgt] at this
              constructor
              · have e : 2 * (i + 1) = 2 * i + 2 := by ring
                rw [e]
                simpa using this.1
              · have e : 2 * (i + 1) + 1 = 2 * i + 1 + 2 := by ring
                rw [e]
                simpa using this.2
            · rw [numChunks_one hr (by omega)] at hi
              omega

theorem snx_sf_read_go_nonpos (fuel : Nat) :
    ∀ (dev : snx_device) (env : Nat → Int) addr rem off,
      (snx_sf_read_go dev fuel env addr rem off).1 ≤ 0 := by
  induction fuel with
  | zero =>
    intro dev env addr rem off
    simp [snx_sf_read_go]
  | succ fuel ih =>
    intro dev env addr rem off
    by_cases hr : rem = 0
    · subst hr
      simp [snx_sf_read_go_zero]
    · by_cases h1 : env 0 < 0
      · rw [snx_sf_read_go_set_fail dev fuel env addr rem off hr h1]
        simp
        omega
      · push_neg at h1
        by_cases h2 : env 1 < 0 ∨ env 1 ≠ (chunkSize rem : Int)
        · rw [snx_sf_read_go_get_fail dev fuel env addr rem off hr h1 h2]
          simp
          split <;> omega
        · push_neg at h2
          rw [snx_sf_read_go_step dev fuel env addr rem off hr h1 h2.2]
          exact ih dev _ _ _ _

theorem snx_sf_read_go_mem (fuel : Nat) :
    ∀ (dev : snx_device) (env : Nat → Int) addr rem off,
      ∀ x ∈ (snx_sf_read_go dev fuel env addr rem off).2.1,
        ∃ w ∈ chunkPlanGo fuel addr rem,
          x = setXfer dev w.1 w.2 ∨ x = getXfer dev w.2 := by
  induction fuel with
  | zero =>
    intro dev env addr rem off x hx
    simp [snx_sf_read_go] at hx
  | succ fuel ih =>
    intro dev env addr rem off x hx
    by_cases hr : rem = 0
    · subst hr
      simp [snx_sf_read_go_zero] at hx
    · rw [chunkPlanGo_cons fuel addr rem hr]
      by_cases h1 : env 0 < 0
      · rw [snx_sf_read_go_set_fail dev fuel env addr rem off hr h1] at hx
        simp at hx
        exact ⟨(addr, chunkSize rem), by simp, by simp [hx]⟩
      · push_neg at h1
        by_cases h2 : env 1 < 0 ∨ env 1 ≠ (chunkSize rem : Int)
        · rw [snx_sf_read_go_get_fail dev fuel env addr rem off hr h1 h2] at hx
          simp at hx
          rcases hx with hx | hx
          · exact ⟨(addr, chunkSize rem), by simp, by simp [hx]⟩
          · exact ⟨(addr, chunkSize rem), by simp, by simp [hx]⟩
        · push_neg at h2
          rw [snx_sf_read_go_step dev fuel env addr rem off hr h1 h2.2] at hx
          simp at hx
          rcases hx with hx | hx | hx
          · exact ⟨(addr, chunkSize rem), by simp, by simp [hx]⟩
          · exact ⟨(addr, chunkSize rem), by simp, by simp [hx]⟩
          · obtain ⟨w, hw, hxw⟩ := ih dev _ _ _ _ x hx
            exact ⟨w, by simp [hw], hxw⟩

theorem snx_sf_read_go_fail_set (j : Nat) :
    ∀ (dev : snx_device) (fuel : Nat) (env : Nat → Int) addr rem off,
      rem ≤ fuel → j < numChunks rem → okEnv env rem j → env (2 * j) < 0 →
      ∃ a c, (chunkPlanGo fuel addr rem).get? j = some (a, c) ∧
        snx_sf_read_go dev fuel env addr rem off =
          (env (2 * j),
           planPairs dev ((chunkPlanGo fuel addr rem).take j) ++ [setXfer dev a c],
           planWrites off ((chunkPlanGo fuel addr rem).take j)) := by
  induction j with
  | zero =>
    intro dev fuel env addr rem off hf hj _ hfail
    have hr : rem ≠ 0 := by
      intro h
      subst h
      simp [numChunks] at hj
    cases fuel with
    | zero => omega
    | succ fuel =>
      refine ⟨addr, chunkSize rem, ?_, ?_⟩
      · rw [chunkPlanGo_cons fuel addr rem hr]
        rfl
      · rw [snx_sf_read_go_set_fail dev fuel env addr rem off hr (by simpa using hfail)]
        rw [chunkPlanGo_cons fuel addr rem hr]
        simp [planPairs, planWrites]
  | succ j ih =>
    intro dev fuel env addr rem off hf hj hok hfail
    have hr : rem ≠ 0 := by
      intro h
      subst h
      simp [numChunks] at hj
    have hgt : rem > 1023 := by
      by_contra hle
      rw [numChunks_one hr (by omega)] at hj
      omega
    cases fuel with
    | zero => omega
    | succ fuel =>
      have h0 := hok 0 (by omega)
      rw [chunkAt_zero] at h0
      have hcs : chunkSize rem = 1023 := chunkSize_of_gt hgt
      have hnext : j < numChunks (rem - 1023) := by
        have := numChunks_succ hgt
        omega
      have hshift : okEnv (fun n => env (n + 2)) (rem - 1023) j := okEnv_shift hgt hok
      have hfail' : (fun n => env (n + 2)) (2 * j) < 0 := by
        have e : 2 * j + (2 : Nat) = 2 * (j + 1) := by ring
        simpa [e] using hfail
      obtain ⟨a, c, hget, heq⟩ := ih dev fuel (fun n => env (n + 2))
        ((addr + chunkSize rem) % 4294967296) (rem - chunkSize rem)
        (off + chunkSize rem) (by have := chunkSize_le rem; omega)
        (by rw [hcs]; exact hnext) (by rw [hcs]; exact hshift)
        (by rw [hcs] at *; exact hfail')
      refine ⟨a, c, ?_, ?_⟩
      · rw [chunkPlanGo_cons fuel addr rem hr]
        simpa using hget
      · rw [snx_sf_read_go_step dev fuel env addr rem off hr h0.1 h0.2, heq]
        rw [chunkPlanGo_cons fuel addr rem hr]
        have e : 2 * j + (2 : Nat) = 2 * (j + 1) := by ring
        simp [planPairs, planWrites, e]

theorem snx_sf_read_go_fail_get (j : Nat) :
    ∀ (dev : snx_device) (fuel : Nat) (env : Nat → Int) addr rem off,
      rem ≤ fuel → j < numChunks rem → okEnv env rem j →
      0 ≤ env (2 * j) → env (2 * j + 1) ≠ (chunkAt rem j : Int) →
      snx_sf_read_go dev fuel env addr rem off =
        ((if env (2 * j + 1) < 0 then env (2 * j + 1) else -1),
         planPairs dev ((chunkPlanGo fuel addr rem).take (j + 1)),
         planWrites off ((chunkPlanGo fuel addr rem).take j) ++
           [(off + 1023 * j, (env (2 * j + 1)).toNat)]) := by
  induction j with
  | zero =>
    intro dev fuel env addr rem off hf hj _ hset hget
    have hr : rem ≠ 0 := by
      intro h
      subst h
      simp [numChunks] at hj
    cases fuel with
    | zero => omega
    | succ fuel =>
      rw [chunkAt_zero] at hget
      rw [snx_sf_read_go_get_fail dev fuel env addr rem off hr
        (by simpa using hset) (Or.inr (by simpa using hget))]
      rw [chunkPlanGo_cons fuel addr rem hr]
      simp [planPairs, planWrites]
  | succ j ih =>
    intro dev fuel env addr rem off hf hj hok hset hget
    have hr : rem ≠ 0 := by
      intro h
      subst h
      simp [numChunks] at hj
    have hgt : rem > 1023 := by
      by_contra hle
      rw [numChunks_one hr (by omega)] at hj
      omega
    cases fuel with
    | zero => omega
    | succ fuel =>
      have h0 := hok 0 (by omega)
      rw [chunkAt_zero] at h0
      have hcs : chunkSize rem = 1023 := chunkSize_of_gt hgt
      have hnext : j < numChunks (rem - 1023) := by
        have := numChunks_succ hgt
        omega
      have hshift : okEnv (fun n => env (n + 2)) (rem - 1023) j := okEnv_shift hgt hok
      have e1 : 2 * j + (2 : Nat) = 2 * (j + 1) := by ring
      have e2 : 2 * j + 1 + (2 : Nat) = 2 * (j + 1) + 1 := by ring
      have hset' : 0 ≤ (fun n => env (n + 2)) (2 * j) := by simpa [e1] using hset
      have hget' : (fun n => env (n + 2)) (2 * j + 1) ≠ (chunkAt (rem - 1023) j : Int) := by
        rw [← chunkAt_succ hgt]
        simpa [e2] using hget
      have heq := ih dev fuel (fun n => env (n + 2))
        ((addr + chunkSize rem) % 4294967296) (rem - chunkSize rem)
        (off + chunkSize rem) (by have := chunkSize_le rem; omega)
        (by rw [hcs]; exact hnext) (by rw [hcs]; exact hshift)
        hset' (by rw [hcs]; exact hget')
      rw [snx_sf_read_go_step dev fuel env addr rem off hr h0.1 h0.2, heq]
      rw [chunkPlanGo_cons fuel addr rem hr]
      have e3 : off + chunkSize rem + 1023 * j = off + 1023 * (j + 1) := by
        rw [hcs]
        ring
      simp only [List.take_succ_cons, planPairs, planWrites, e1, e2, e3,
        List.cons_append]

theorem readSetPayload_mod24 {a1 a2 : Nat} (c : Nat)
    (h : a1 % 16777216 = a2 % 16777216) :
    readSetPayload a1 c = readSetPayload a2 c := by
  unfold readSetPayload
  rw [Nat.shiftRight_eq_div_pow, Nat.shiftRight_eq_div_pow,
      Nat.shiftRight_eq_div_pow, Nat.shiftRight_eq_div_pow]
  norm_num
  refine ⟨?_, ?_, ?_⟩ <;> omega

theorem readSetPayload_low24 (a c : Nat) :
    readSetPayload a c = readSetPayload (a % 16777216) c := by
  exact readSetPayload_mod24 c (by omega)

theorem snx_sf_read_go_mod24 (fuel : Nat) :
    ∀ (dev : snx_device) (env : Nat → Int) (a1 a2 rem off : Nat),
      a1 % 16777216 = a2 % 16777216 →
      snx_sf_read_go dev fuel env a1 rem off =
        snx_sf_read_go dev fuel env a2 rem off := by
  induction fuel with
  | zero =>
    intro dev env a1 a2 rem off h
    simp [snx_sf_read_go]
  | succ fuel ih =>
    intro dev env a1 a2 rem off h
    by_cases hr : rem = 0
    · subst hr
      simp [snx_sf_read_go_zero]
    · have hset : setXfer dev a1 (chunkSize rem) = setXfer dev a2 (chunkSize rem) := by
        unfold setXfer
        rw [readSetPayload_mod24 (chunkSize rem) h]
      by_cases h1 : env 0 < 0
      · rw [snx_sf_read_go_set_fail dev fuel env a1 rem off hr h1,
            snx_sf_read_go_set_fail dev fuel env a2 rem off hr h1, hset]
      · push_neg at h1
        by_cases h2 : env 1 < 0 ∨ env 1 ≠ (chunkSize rem : Int)
        · rw [snx_sf_read_go_get_fail dev fuel env a1 rem off hr h1 h2,
              snx_sf_read_go_get_fail dev fuel env a2 rem off hr h1 h2, hset]
        · push_neg at h2
          rw [snx_sf_read_go_step dev fuel env a1 rem off hr h1 h2.2,
              snx_sf_read_go_step dev fuel env a2 rem off hr h1 h2.2, hset,
              ih dev (fun n => env (n + 2)) ((a1 + chunkSize rem) % 4294967296)
                ((a2 + chunkSize rem) % 4294967296) (rem - chunkSize rem)
                (off + chunkSize rem) (by omega)]

/-! ### Claim theorems -/

/-- A concrete oracle world used to instantiate theorems about `c_main`:
USB init succeeds, the device is found, the interface claim succeeds, the
dump world has a working malloc and fopen but every control transfer
fails, and the read command's transfers fail as well. -/
def demoWorld : MainWorld :=
  ⟨⟨true, 5, some 7, true⟩, ⟨true, fun _ => -1, true, 0⟩, fun _ => -1⟩

/-- C8: for every session and address, `snx_sf_read` with `length = 0`
returns 0 immediately, issues no Set or Get transfer, and performs no
write into the output buffer. -/
theorem C8_zero_length_read (dev : snx_device) (env : Nat → Int) (addr : Nat) :
    snx_sf_read dev env addr 0 = (0, [], []) := rfl

/-- C6: `snx_close` on the fully-closed (all-zero) session makes no USB
library call and leaves the session fully closed; and closing twice is
the same as closing once (the second close changes nothing and makes no
call). -/
theorem C6_close_idempotent :
    snx_close ⟨none, none, 0, 0⟩ = (⟨none, none, 0, 0⟩, []) ∧
    ∀ d : snx_device, snx_close (snx_close d).1 = ((snx_close d).1, []) := by
  exact ⟨rfl, fun d => rfl⟩

/-- C10: the read behaves identically on two starting addresses that are
congruent modulo `2^24` (in particular the SET payloads coincide), and
every SET payload encodes only the low 24 bits of the running address:
bits above bit 23 are silently discarded, never rejected. -/
theorem C10_addr_mod24 (dev : snx_device) (env : Nat → Int) (a1 a2 length : Nat)
    (h : a1 % 16777216 = a2 % 16777216) :
    snx_sf_read dev env a1 length = snx_sf_read dev env a2 length ∧
    ∀ a c : Nat, readSetPayload a c = readSetPayload (a % 16777216) c := by
  refine ⟨?_, fun a c => readSetPayload_low24 a c⟩
  unfold snx_sf_read
  exact snx_sf_read_go_mod24 length dev env a1 a2 length 0 h

/-- Witness for C10 at the concrete pair `2^24 + 5` and `5`. -/
theorem C10_addr_mod24_witness :
    16777221 % 16777216 = 5 % 16777216 ∧
    (snx_sf_read ⟨some 1, some 2, 0, 3⟩ (fun _ => 1) 16777221 1 =
        snx_sf_read ⟨some 1, some 2, 0, 3⟩ (fun _ => 1) 5 1 ∧
      ∀ a c : Nat, readSetPayload a c = readSetPayload (a % 16777216) c) :=
  ⟨by decide, C10_addr_mod24 ⟨some 1, some 2, 0, 3⟩ (fun _ => 1) 16777221 5 1 (by decide)⟩

/-- C1 counterexample: at `addr = 2^32 - 1`, `length = 1024` (values a C
caller can pass) the two windows are `(4294967295, 1023)` and `(1022, 1)`:
the 32-bit address counter wraps, so the windows are not strictly
increasing (and not contiguous in ℕ), contradicting the claim as stated;
the read under a successful oracle really issues exactly these windows'
Set/Get pairs. -/
theorem C1_counterexample :
    chunkPlan 4294967295 1024 = [(4294967295, 1023), (1022, 1)] ∧
    ¬ (4294967295 < 1022) ∧
    (snx_sf_read ⟨some 1, some 2, 0, 3⟩
        (fun k => if k = 3 then 1 else 1023) 4294967295 1024).2.1 =
      planPairs ⟨some 1, some 2, 0, 3⟩ [(4294967295, 1023), (1022, 1)] := by
  decide

/-- C1 (amended with the hypothesis `addr + length ≤ 2^32`, i.e. no 32-bit
wraparound): for `length > 0` the chunk plan has exactly
`ceil(length/1023) = numChunks length` windows; they start at `addr`, are
contiguous (each next window starts where the previous ended), strictly
increasing and non-overlapping, each window moves at least 1 and at most
1023 bytes, and the windows sum to `length`; under an oracle where every
Set succeeds and every Get returns its full chunk, `snx_sf_read` returns 0
and issues exactly the plan's Set/Get pairs in order; for `length ≤ 1023`
there is exactly one pair; and `Read(addr = 0, length = 2500)` produces
the plan `[(0, 1023), (1023, 1023), (2046, 454)]`. -/
theorem C1_chunk_windows (dev : snx_device) (env : Nat → Int) (addr length : Nat)
    (h0 : 0 < length) (hnw : addr + length ≤ 4294967296)
    (henv : okEnv env length (numChunks length)) :
    ((chunkPlan addr length).length = numChunks length ∧
      length ≤ (chunkPlan addr length).length * 1023 ∧
      ((chunkPlan addr length).length - 1) * 1023 < length) ∧
    (chunkPlan addr length).head? = some (addr, chunkSize length) ∧
    List.Chain' (fun w1 w2 : Nat × Nat => w2.1 = w1.1 + w1.2) (chunkPlan addr length) ∧
    List.Pairwise (fun w1 w2 : Nat × Nat => w1.1 + w1.2 ≤ w2.1) (chunkPlan addr length) ∧
    (∀ w ∈ chunkPlan addr length, 0 < w.2 ∧ w.2 ≤ 1023) ∧
    ((chunkPlan addr length).map Prod.snd).sum = length ∧
    snx_sf_read dev env addr length =
      (0, planPairs dev (chunkPlan addr length),
       planWrites 0 (chunkPlan addr length)) ∧
    (length ≤ 1023 → (chunkPlan addr length).length = 1) ∧
    chunkPlan 0 2500 = [(0, 1023), (1023, 1023), (2046, 454)] := by
  have hc : (chunkPlan addr length).length = numChunks length :=
    chunkPlanGo_length length addr length le_rfl
  refine ⟨⟨hc, ?_, ?_⟩, ?_, ?_, ?_, ?_, ?_, ?_, ?_, ?_⟩
  · rw [hc]
    unfold numChunks
    omega
  · rw [hc]
    unfold numChunks
    omega
  · exact chunkPlanGo_head length addr length le_rfl (by omega)
  · exact chunkPlanGo_chain length addr length le_rfl hnw
  · exact chunkPlanGo_pairwise length addr length le_rfl hnw
  · exact chunkPlanGo_mem_bounds length addr length le_rfl
  · exact chunkPlanGo_sum length addr length le_rfl
  · exact snx_sf_read_go_ok length dev env addr length 0 le_rfl henv
  · intro hle
    rw [hc, numChunks_one (by omega) hle]
  · decide

/-- Witness for C1 at `addr = 0`, `length = 2500` with an oracle returning
success on every Set and the exact chunk size on every Get. -/
theorem C1_chunk_windows_witness :
    (0 < 2500 ∧ 0 + 2500 ≤ 4294967296 ∧
      okEnv (fun k => if k = 5 then 454 else 1023) 2500 (numChunks 2500)) ∧
    snx_sf_read ⟨some 1, some 2, 0, 3⟩ (fun k => if k = 5 then 454 else 1023) 0 2500 =
      (0, planPairs ⟨some 1, some 2, 0, 3⟩ (chunkPlan 0 2500),
       planWrites 0 (chunkPlan 0 2500)) :=
  ⟨⟨by decide, by decide, by decide⟩,
   (C1_chunk_windows ⟨some 1, some 2, 0, 3⟩ (fun k => if k = 5 then 454 else 1023)
      0 2500 (by decide) (by decide) (by decide)).2.2.2.2.2.2.1⟩

/-- C2: every control transfer issued by `snx_sf_read` has a 3000 ms
timeout, `wIndex = (xu_id << 8) | vc_interface`, and requests at most
1023 bytes; every Set has bmRequestType 0x21, bRequest 0x01,
`wValue = 0x23 << 8` and a 5-byte payload that is the 3-byte big-endian
address of one of the plan's windows followed by the 2-byte big-endian
chunk length (which never exceeds 1023); every Get has bmRequestType 0xA1,
bRequest 0x81, `wValue = 0x24 << 8` and requests exactly one window's
chunk size. -/
theorem C2_wire_framing (dev : snx_device) (env : Nat → Int) (addr length : Nat)
    (hvc : dev.vc_interface < 256) (hxu : dev.xu_id < 256) :
    ∀ x ∈ (snx_sf_read dev env addr length).2.1,
      x.timeout = 3000 ∧
      x.wIndex = (dev.xu_id <<< 8) ||| dev.vc_interface ∧
      x.wLength ≤ 1023 ∧
      (x.hostToDevice = true →
        x.bmRequestType = 0x21 ∧ x.bRequest = 0x01 ∧
        x.wValue = XU_CMD_SPI_READ_SET <<< 8 ∧ x.wLength = 5 ∧
        ∃ w ∈ chunkPlan addr length,
          x.data = [(w.1 >>> 16) % 256, (w.1 >>> 8) % 256, w.1 % 256,
                    (w.2 >>> 8) % 256, w.2 % 256] ∧ w.2 ≤ 1023) ∧
      (x.hostToDevice = false →
        x.bmRequestType = 0xA1 ∧ x.bRequest = 0x81 ∧
        x.wValue = XU_CMD_SPI_READ_GET <<< 8 ∧
        ∃ w ∈ chunkPlan addr length, x.wLength = w.2) := by
  intro x hx
  have hidx : (dev.xu_id <<< 8) ||| dev.vc_interface < 65536 := by
    have h1 : dev.xu_id <<< 8 < 2 ^ 16 := by
      rw [Nat.shiftLeft_eq]
      norm_num
      omega
    have h2 : dev.vc_interface < 2 ^ 16 := by
      norm_num
      omega
    have := Nat.or_lt_two_pow h1 h2
    norm_num at this
    exact this
  have hmod : ((dev.xu_id <<< 8) ||| dev.vc_interface) % 65536 =
      (dev.xu_id <<< 8) ||| dev.vc_interface := Nat.mod_eq_of_lt hidx
  obtain ⟨w, hw, hcase⟩ := snx_sf_read_go_mem length dev env addr length 0 x hx
  have hwb := chunkPlanGo_mem_bounds length addr length le_rfl w hw
  rcases hcase with hset | hget
  · subst hset
    refine ⟨rfl, hmod, by simp [setXfer, snx_xu_set], fun _ => ?_,
      fun h => by simp [setXfer, snx_xu_set] at h⟩
    refine ⟨rfl, rfl, rfl, rfl, w, hw, rfl, hwb.2⟩
  · subst hget
    refine ⟨rfl, hmod, ?_, fun h => by simp [getXfer, snx_xu_get] at h, fun _ => ?_⟩
    · exact hwb.2
    · refine ⟨rfl, rfl, rfl, w, hw, rfl⟩

/-- Witness for C2: the Set transfer of a 1-byte read from address 0 on a
device with interface 0 and unit id 3. -/
theorem C2_wire_framing_witness :
    ((⟨some 1, some 2, 0, 3⟩ : snx_device).vc_interface < 256 ∧
      (⟨some 1, some 2, 0, 3⟩ : snx_device).xu_id < 256 ∧
      setXfer ⟨some 1, some 2, 0, 3⟩ 0 1 ∈
        (snx_sf_read ⟨some 1, some 2, 0, 3⟩ (fun _ => 1) 0 1).2.1) ∧
    ((setXfer ⟨some 1, some 2, 0, 3⟩ 0 1).timeout = 3000 ∧
      (setXfer ⟨some 1, some 2, 0, 3⟩ 0 1).wIndex = (3 <<< 8) ||| 0) :=
  ⟨⟨by decide, by decide, by decide⟩,
   ⟨(C2_wire_framing ⟨some 1, some 2, 0, 3⟩ (fun _ => 1) 0 1 (by decide) (by decide)
       (setXfer ⟨some 1, some 2, 0, 3⟩ 0 1) (by decide)).1,
    (C2_wire_framing ⟨some 1, some 2, 0, 3⟩ (fun _ => 1) 0 1 (by decide) (by decide)
       (setXfer ⟨some 1, some 2, 0, 3⟩ 0 1) (by decide)).2.1⟩⟩

/-- C3: with the first `j` chunks transferred successfully, (a) if the
`j`-th Set fails, the read returns that Set's negative value at once,
issuing the first `j` Set/Get pairs and the failing Set but not its Get
nor any later chunk; (b) if the `j`-th Set succeeds but its Get returns
less than the chunk size, the read returns a negative value and issues
nothing after that chunk's pair; and (c) the read returns 0 exactly when
every Set of every chunk succeeded and every Get returned its full chunk,
so no partial transfer is ever reported as success. -/
theorem C3_error_propagation (dev : snx_device) (env : Nat → Int)
    (addr length j : Nat) (hj : j < numChunks length) (hok : okEnv env length j) :
    (env (2 * j) < 0 →
      ∃ a c, (chunkPlan addr length).get? j = some (a, c) ∧
        snx_sf_read dev env addr length =
          (env (2 * j),
           planPairs dev ((chunkPlan addr length).take j) ++ [setXfer dev a c],
           planWrites 0 ((chunkPlan addr length).take j))) ∧
    (0 ≤ env (2 * j) → env (2 * j + 1) < (chunkAt length j : Int) →
      (snx_sf_read dev env addr length).1 < 0 ∧
      (snx_sf_read dev env addr length).2.1 =
        planPairs dev ((chunkPlan addr length).take (j + 1))) ∧
    ((snx_sf_read dev env addr length).1 = 0 ↔ okEnv env length (numChunks length)) := by
  refine ⟨?_, ?_, ?_⟩
  · intro hfail
    obtain ⟨a, c, hget, heq⟩ :=
      snx_sf_read_go_fail_set j dev length env addr length 0 le_rfl hj hok hfail
    exact ⟨a, c, hget, heq⟩
  · intro hset hlt
    have hne : env (2 * j + 1) ≠ (chunkAt length j : Int) := by omega
    have heq := snx_sf_read_go_fail_get j dev length env addr length 0
      le_rfl hj hok hset hne
    unfold snx_sf_read
    rw [heq]
    constructor
    · split <;> omega
    · rfl
  · constructor
    · exact snx_sf_read_go_eq_zero length dev env addr length 0 le_rfl
    · intro hall
      rw [snx_sf_read, snx_sf_read_go_ok length dev env addr length 0 le_rfl hall]

/-- Witness for C3: a 2046-byte read whose second Set fails with -7.
The read returns -7 after the first full pair and the lone failing Set. -/
theorem C3_error_propagation_witness :
    (1 < numChunks 2046 ∧ okEnv (fun k => if k = 2 then -7 else 1023) 2046 1 ∧
      (if (2 : Nat) * 1 = 2 then (-7 : Int) else 1023) < 0) ∧
    (∃ a c, (chunkPlan 0 2046).get? 1 = some (a, c) ∧
      snx_sf_read ⟨some 1, some 2, 0, 3⟩
          (fun k => if k = 2 then -7 else 1023) 0 2046 =
        (-7,
         planPairs ⟨some 1, some 2, 0, 3⟩ ((chunkPlan 0 2046).take 1) ++
           [setXfer ⟨some 1, some 2, 0, 3⟩ a c],
         planWrites 0 ((chunkPlan 0 2046).take 1))) :=
  ⟨⟨by decide, by decide, by decide⟩,
   (C3_error_propagation ⟨some 1, some 2, 0, 3⟩
      (fun k => if k = 2 then -7 else 1023) 0 2046 1
      (by decide) (by decide)).1 (by decide)⟩

/-- C4 counterexample: with one positional argument that is neither
"dump" nor "read" and a device that opens successfully, the program does
not treat the argument as a usage error: it opens the device (USB
lifecycle calls are made), prints "Unknown command" rather than the usage
message, and exits with status 0, not 1. -/
theorem C4_counterexample :
    (c_main demoWorld ["snx_flash.exe", "bogus"]).1 = 0 ∧
    (c_main demoWorld ["snx_flash.exe", "bogus"]).2.1 = ["Unknown command"] ∧
    (c_main demoWorld ["snx_flash.exe", "bogus"]).2.2.1 ≠ [] := by
  decide

/-- C4 (amended): when the argument count differs from one positional
argument, the program prints the usage message, exits with status 1 and
performs no USB operation; but a single argument other than "dump" or
"read" is not a usage error: the device is opened and closed, "Unknown
command" is printed, and (when the open succeeds) the exit status is 0. -/
theorem C4_usage_behavior (w : MainWorld) (argv : List String) :
    (argv.length ≠ 2 →
      c_main w argv = (1, ["Usage: " ++ argv.headD "" ++ " dump|read"], [], [])) ∧
    (argv.length = 2 → argv.getD 1 "" ≠ "dump" → argv.getD 1 "" ≠ "read" →
      (snx_open w.openW 0x0C45 0x6366 0 3).1 = 0 →
      c_main w argv =
        (0, ["Unknown command"],
         (snx_open w.openW 0x0C45 0x6366 0 3).2.2 ++
           (snx_close (snx_open w.openW 0x0C45 0x6366 0 3).2.1).2, [])) := by
  constructor
  · intro h
    simp [c_main, h]
  · intro h2 hd hr hopen
    obtain ⟨a, b, rfl⟩ : ∃ a b, argv = [a, b] := by
      rcases argv with _ | ⟨a, _ | ⟨b, _ | ⟨c, t⟩⟩⟩
      · simp at h2
      · simp at h2
      · exact ⟨a, b, rfl⟩
      · simp at h2
    simp only [List.getD_cons_succ, List.getD_cons_zero] at hd hr
    simp [c_main, hd, hr, hopen]

/-- Witness for C4 at a concrete two-element argument vector with an
unknown command and a successfully opening device. -/
theorem C4_usage_behavior_witness :
    ((["snx_flash.exe", "bogus"] : List String).length = 2 ∧
      (["snx_flash.exe", "bogus"] : List String).getD 1 "" ≠ "dump" ∧
      (["snx_flash.exe", "bogus"] : List String).getD 1 "" ≠ "read" ∧
      (snx_open demoWorld.openW 0x0C45 0x6366 0 3).1 = 0) ∧
    c_main demoWorld ["snx_flash.exe", "bogus"] =
      (0, ["Unknown command"],
       [UsbEv.init, UsbEv.openDev, UsbEv.claim 0 true,
        UsbEv.release 0, UsbEv.closeDev, UsbEv.exitCtx], []) :=
  ⟨⟨by decide, by decide, by decide, by decide⟩,
   (C4_usage_behavior demoWorld ["snx_flash.exe", "bogus"]).2
     (by decide) (by decide) (by decide) (by decide)⟩

/-- C5 counterexample: (a) with USB init succeeding but no matching
device, `snx_open` fails with -1 and releases the context, yet the
returned session keeps the stale context pointer in its `ctx` field, so
the session is not in the fully-closed (all fields zero) state; (b) with
a device present but the interface claim failing, `snx_open` returns
success even though the interface was not claimed. -/
theorem C5_counterexample :
    ((snx_open ⟨true, 5, none, true⟩ 0x0C45 0x6366 0 3).1 = -1 ∧
      (snx_open ⟨true, 5, none, true⟩ 0x0C45 0x6366 0 3).2.1.ctx = some 5 ∧
      ¬ sessionClosed (snx_open ⟨true, 5, none, true⟩ 0x0C45 0x6366 0 3).2.1) ∧
    ((snx_open ⟨true, 5, some 7, false⟩ 0x0C45 0x6366 0 3).1 = 0 ∧
      UsbEv.claim 0 true ∉ (snx_open ⟨true, 5, some 7, false⟩ 0x0C45 0x6366 0 3).2.2 ∧
      UsbEv.claim 0 false ∈ (snx_open ⟨true, 5, some 7, false⟩ 0x0C45 0x6366 0 3).2.2) := by
  decide

/-- C5 (amended): after Close the session is always fully closed; when
USB init fails, Open returns failure with a fully-closed session and only
the failed init call made; when no device is found, Open returns failure
after releasing the context (`exitCtx` is called), but the session's
`ctx` field keeps the stale pointer value, so the session is not fully
closed; when Open succeeds, the context and handle are recorded, and the
interface claim has been attempted, its success or failure being ignored. -/
theorem C5_open_close_states (w : OpenWorld) (vid pid vc_if xu_id : Nat) :
    (w.init_ok = false →
      snx_open w vid pid vc_if xu_id = (-1, ⟨none, none, 0, 0⟩, [UsbEv.init])) ∧
    (w.init_ok = true → w.device = none →
      snx_open w vid pid vc_if xu_id =
        (-1, ⟨some w.ctxVal, none, 0, 0⟩,
         [UsbEv.init, UsbEv.openDev, UsbEv.exitCtx])) ∧
    (∀ h, w.init_ok = true → w.device = some h →
      snx_open w vid pid vc_if xu_id =
        (0, ⟨some w.ctxVal, some h, vc_if, xu_id⟩,
         [UsbEv.init, UsbEv.openDev, UsbEv.claim vc_if w.claim_ok])) ∧
    (∀ d : snx_device, sessionClosed (snx_close d).1) := by
  refine ⟨?_, ?_, ?_, ?_⟩
  · intro h
    simp [snx_open, h]
  · intro h1 h2
    simp [snx_open, h1, h2]
  · intro h h1 h2
    simp [snx_open, h1, h2]
  · intro d
    simp [snx_close, sessionClosed]

/-- Witness for C5 on the successful-open branch with a concrete world. -/
theorem C5_open_close_states_witness :
    ((⟨true, 5, some 7, false⟩ : OpenWorld).init_ok = true ∧
      (⟨true, 5, some 7, false⟩ : OpenWorld).device = some 7) ∧
    snx_open ⟨true, 5, some 7, false⟩ 0x0C45 0x6366 0 3 =
      (0, ⟨some 5, some 7, 0, 3⟩,
       [UsbEv.init, UsbEv.openDev, UsbEv.claim 0 false]) :=
  ⟨⟨by decide, by decide⟩,
   (C5_open_close_states ⟨true, 5, some 7, false⟩ 0x0C45 0x6366 0 3).2.2.1 7
     (by decide) (by decide)⟩

/-- C7 counterexample: a 1-byte dump whose read succeeds and whose
destination opens, but whose `fwrite` writes 0 bytes, still returns
success (0) while the destination file was created with 0 bytes instead
of the requested 1 byte — the "fully written or not written at all"
guarantee fails because the code never checks `fwrite`'s return value. -/
theorem C7_counterexample :
    snx_dump_firmware ⟨true, fun _ => 1, true, 0⟩ ⟨some 1, some 2, 0, 3⟩ 0 1
        "firmware_dump.bin" =
      (0, DumpFile.written 0,
       [setXfer ⟨some 1, some 2, 0, 3⟩ 0 1, getXfer ⟨some 1, some 2, 0, 3⟩ 1]) ∧
    DumpFile.written 0 ≠ DumpFile.written 1 := by
  decide

/-- C7 (amended): allocation failure, read failure and destination-open
failure are each failure outcomes of Dump (the destination is untouched
in all three); a successful read whose destination cannot be opened still
reports failure; but when the destination opens, it is written by a
single `fwrite` whose result is not checked and then closed, so it ends
up with `min fwrite_ret length` bytes — a short write leaves a partial
destination while Dump still returns success. -/
theorem C7_dump_outcomes (w : DumpWorld) (dev : snx_device)
    (addr length : Nat) (path : String) :
    (w.malloc_ok = false →
      snx_dump_firmware w dev addr length path = (-1, DumpFile.untouched, [])) ∧
    (w.malloc_ok = true → (snx_sf_read dev w.env addr length).1 ≠ 0 →
      (snx_sf_read dev w.env addr length).1 < 0 ∧
      snx_dump_firmware w dev addr length path =
        ((snx_sf_read dev w.env addr length).1, DumpFile.untouched,
         (snx_sf_read dev w.env addr length).2.1)) ∧
    (w.malloc_ok = true → (snx_sf_read dev w.env addr length).1 = 0 →
      w.fopen_ok = false →
      snx_dump_firmware w dev addr length path =
        (-1, DumpFile.untouched, (snx_sf_read dev w.env addr length).2.1)) ∧
    (w.malloc_ok = true → (snx_sf_read dev w.env addr length).1 = 0 →
      w.fopen_ok = true →
      snx_dump_firmware w dev addr length path =
        (0, DumpFile.written (min w.fwrite_ret length),
         (snx_sf_read dev w.env addr length).2.1)) := by
  refine ⟨?_, ?_, ?_, ?_⟩
  · intro h
    simp [snx_dump_firmware, h]
  · intro h hfail
    have hle : (snx_sf_read dev w.env addr length).1 ≤ 0 :=
      snx_sf_read_go_nonpos length dev w.env addr length 0
    refine ⟨by omega, ?_⟩
    simp [snx_dump_firmware, h, hfail]
  · intro h hok hfo
    simp [snx_dump_firmware, h, hok, hfo]
  · intro h hok hfo
    simp [snx_dump_firmware, h, hok, hfo]

/-- Witness for C7 on the fully successful branch of a 1-byte dump. -/
theorem C7_dump_outcomes_witness :
    ((⟨true, fun _ => 1, true, 1⟩ : DumpWorld).malloc_ok = true ∧
      (snx_sf_read ⟨some 1, some 2, 0, 3⟩
        (⟨true, fun _ => 1, true, 1⟩ : DumpWorld).env 0 1).1 = 0 ∧
      (⟨true, fun _ => 1, true, 1⟩ : DumpWorld).fopen_ok = true) ∧
    snx_dump_firmware ⟨true, fun _ => 1, true, 1⟩ ⟨some 1, some 2, 0, 3⟩ 0 1
        "firmware_dump.bin" =
      (0, DumpFile.written 1,
       [setXfer ⟨some 1, some 2, 0, 3⟩ 0 1, getXfer ⟨some 1, some 2, 0, 3⟩ 1]) :=
  ⟨⟨by decide, by decide, by decide⟩,
   (C7_dump_outcomes ⟨true, fun _ => 1, true, 1⟩ ⟨some 1, some 2, 0, 3⟩ 0 1
      "firmware_dump.bin").2.2.2 (by decide) (by decide) (by decide)⟩

/-- C9: when the argument vector has exactly two entries, the device
opens successfully and the command is "dump" or "read", the process exits
with status 0 whether or not the operation succeeds; the operation's
outcome is visible only in the printed message. -/
theorem C9_exit_zero (w : MainWorld) (argv : List String)
    (hlen : argv.length = 2)
    (hopen : (snx_open w.openW 0x0C45 0x6366 0 3).1 = 0)
    (hcmd : argv.getD 1 "" = "dump" ∨ argv.getD 1 "" = "read") :
    (c_main w argv).1 = 0 ∧
    (argv.getD 1 "" = "dump" →
      (c_main w argv).2.1 =
        [if (snx_dump_firmware w.dumpW (snx_open w.openW 0x0C45 0x6366 0 3).2.1
              0 0x20000 "firmware_dump.bin").1 = 0
         then "Firmware dumped to firmware_dump.bin" else "Dump failed"]) ∧
    (argv.getD 1 "" = "read" →
      (c_main w argv).2.1 =
        [if (snx_sf_read (snx_open w.openW 0x0C45 0x6366 0 3).2.1 w.readEnv
              0 256).1 = 0
         then "Read 256 bytes OK" else "Read failed"]) := by
  obtain ⟨a, b, rfl⟩ : ∃ a b, argv = [a, b] := by
    rcases argv with _ | ⟨a, _ | ⟨b, _ | ⟨c, t⟩⟩⟩
    · simp at hlen
    · simp at hlen
    · exact ⟨a, b, rfl⟩
    · simp at hlen
  simp only [List.getD_cons_succ, List.getD_cons_zero] at hcmd ⊢
  rcases hcmd with hb | hb <;> subst hb <;> simp [c_main, hopen]

/-- Witness for C9: concrete world where the device opens but every dump
transfer fails; the process still exits 0 and only prints "Dump failed". -/
theorem C9_exit_zero_witness :
    ((["snx_flash.exe", "dump"] : List String).length = 2 ∧
      (snx_open demoWorld.openW 0x0C45 0x6366 0 3).1 = 0 ∧
      (["snx_flash.exe", "dump"] : List String).getD 1 "" = "dump") ∧
    ((c_main demoWorld ["snx_flash.exe", "dump"]).1 = 0 ∧
      (c_main demoWorld ["snx_flash.exe", "dump"]).2.1 = ["Dump failed"]) :=
  ⟨⟨by decide, by decide, by decide⟩,
   ⟨(C9_exit_zero demoWorld ["snx_flash.exe", "dump"] (by decide) (by decide)
       (Or.inl (by decide))).1,
    by
      have := (C9_exit_zero demoWorld ["snx_flash.exe", "dump"] (by decide)
        (by decide) (Or.inl (by decide))).2.1 (by decide)
      simpa using this⟩⟩
